import Mathlib

/-!
Verification development for the Yandex reverse-image-search scraper
(`yandex_image_scraper.py`, `yandex_image_scraper-v2.py`,
`yandex_scraper_local.py`).  The Python sources are shallowly embedded:
pure string manipulation (`urllib.parse.urlparse` path extraction,
`pathlib.Path.suffix`, `f"{i:04d}"` formatting) is translated to total
Lean functions on `String`/`List Char`; the stateful pieces
(`save_image`'s dedup store, the scroll-convergence loops, the
window-handle bookkeeping, the `try/finally` driver teardown) become
explicit state-passing functions.  External collaborators (the network
fetch, the perceptual hash, image decoding) enter as function
parameters returning `Option`, mirroring the source's
"return None / swallow the exception" treatment of their failures.
-/

/-- Image payloads are abstract tokens: the code never inspects the bytes
except through the (parameterised) decode/hash/size collaborators. -/
abbrev Img := Nat

/-- Element handles returned by `driver.find_elements` are abstract tokens. -/
abbrev Handle := Nat

/-! ### Python string helpers: `urlparse(url).path` and `Path(p).suffix` -/

/-- Characters permitted in a URL scheme by `urllib.parse`
(letters, digits, `+`, `-`, `.`). -/
def schemeChar (c : Char) : Bool :=
  c.isAlphanum || c == '+' || c == '-' || c == '.'

/-- Model of `urllib.parse`'s scheme removal: if the text before the first
`:` is nonempty, starts with a letter and consists of scheme characters,
drop it together with the colon. -/
def stripScheme (l : List Char) : List Char :=
  let pre := l.takeWhile (· != ':')
  if pre.length < l.length ∧ pre ≠ [] ∧ (pre.headD '0').isAlpha = true ∧
      pre.all schemeChar = true then
    l.drop (pre.length + 1)
  else l

/-- True while scanning netloc characters (`urllib.parse` ends the netloc
at the first `/`, `?` or `#`). -/
def notNetlocEnd (c : Char) : Bool :=
  !(c == '/' || c == '?' || c == '#')

/-- Model of `urllib.parse`'s netloc removal: after the scheme, a leading
`//` introduces the netloc, which extends to the first `/`, `?` or `#`. -/
def stripNetloc : List Char → List Char
  | '/' :: '/' :: rest => rest.dropWhile notNetlocEnd
  | l => l

/-- Model of `urlparse`'s params split: the part of the last `/`-segment
from the first `;` on is removed from the path. -/
def stripParams (p : List Char) : List Char :=
  let seg := (p.reverse.takeWhile (· != '/')).reverse
  let pre := p.take (p.length - seg.length)
  pre ++ seg.takeWhile (· != ';')

/-- `urlparse(url).path` for the URLs the scraper handles: strip the
scheme, the `//netloc`, the `#fragment`, the `?query` and the
`;params` of the last segment, keeping the path. -/
def urlparsePath (url : String) : String :=
  let l := stripScheme url.data
  let l := stripNetloc l
  let l := l.takeWhile (· != '#')
  let l := l.takeWhile (· != '?')
  ⟨stripParams l⟩

/-- Split a character list into its `/`-separated segments. -/
def splitSegs : List Char → List (List Char)
  | [] => [[]]
  | c :: rest =>
    match splitSegs rest with
    | [] => [[]]
    | s :: ss => if c = '/' then [] :: s :: ss else (c :: s) :: ss

/-- `pathlib.PurePath(p).name`: the last path component, with empty and
`.` segments dropped (pathlib normalises them away). -/
def pathName (p : String) : String :=
  ⟨((((splitSegs p.data).filter
      (fun s => !(s.isEmpty) && !(s == ['.'])))).getLast?).getD []⟩

/-- Index of the last occurrence of `c` in `l`, if any. -/
def lastIndexOf (c : Char) (l : List Char) : Option Nat :=
  match (l.reverse).findIdx? (· == c) with
  | some j => some (l.length - 1 - j)
  | none => none

/-- `pathlib.PurePath(p).suffix`: with `name` the final component and `i`
the index of its last dot, the suffix is `name[i:]` when `0 < i < len-1`,
else the empty string. -/
def pathSuffix (p : String) : String :=
  let name := (pathName p).data
  match lastIndexOf '.' name with
  | some i => if 0 < i ∧ i + 1 < name.length then ⟨name.drop i⟩ else ""
  | none => ""

/-- Python `f"{n:04d}"` for a natural number: decimal digits left-padded
with zeros to width at least 4. -/
def pad4 (n : Nat) : String :=
  let s := toString n
  (⟨List.replicate (4 - s.length) '0'⟩ : String) ++ s

/-! ### Dedup & persistence store (`save_image` in all three files) -/

/-- `ext = Path(urlparse(url).path).suffix or ".jpg"`, then the dead guard
`if not ext or ext == ".": ext = ".jpg"` from the source. -/
def deriveExt (url : String) : String :=
  let e := pathSuffix (urlparsePath url)
  let e := if e = "" then ".jpg" else e
  if e = "." then ".jpg" else e

/-- `filename = f"yandex_{index:04d}{ext}"` from the source. -/
def deriveFilename (url : String) (index : Nat) : String :=
  "yandex_" ++ pad4 index ++ deriveExt url

/-- The mutable scraper state touched by `save_image`:
`self.downloaded_urls` (as a list, most recent first),
`self.downloaded_count`, and the output directory contents
(filename-keyed, `open(..., "wb")` overwrites). -/
structure ScraperState where
  downloaded_urls : List String
  downloaded_count : Nat
  files : List (String × Img)
deriving DecidableEq, Repr

/-- Fresh state at run start (`__init__`). -/
def initState : ScraperState := ⟨[], 0, []⟩

/-- `open(filepath, "wb").write(data)`: overwrite the entry named `name`
if present, else append it. -/
def writeFile (files : List (String × Img)) (name : String) (data : Img) :
    List (String × Img) :=
  if files.any (fun e => e.1 == name) then
    files.map (fun e => if e.1 == name then (name, data) else e)
  else files ++ [(name, data)]

/-- `save_image(url, image_data, index)`: skip (returning `False`) when the
URL was already accepted this run; otherwise derive the filename, write the
bytes, record the URL and bump the counter, returning `True`.  The file
write is modelled as always succeeding; the source's `except` branch
returns `False` leaving every field unchanged, which the duplicate branch
already exhibits. -/
def save_image (s : ScraperState) (url : String) (data : Img) (index : Nat) :
    Bool × ScraperState :=
  if url ∈ s.downloaded_urls then (false, s)
  else
    (true,
      { downloaded_urls := url :: s.downloaded_urls
        downloaded_count := s.downloaded_count + 1
        files := writeFile s.files (deriveFilename url index) data })

/-- A run's sequence of `save_image` calls, folded over the state. -/
def runSaves : ScraperState → List (String × Img × Nat) → ScraperState
  | s, [] => s
  | s, (u, d, i) :: rest => runSaves (save_image s u d i).2 rest

/-! ### Pagination convergence (`step3_scroll_until_show_more`)

`yandex_image_scraper.py` and `yandex_image_scraper-v2.py` implement the
height-check loop: read `document.body.scrollHeight` once before the loop
(`h0`), then per iteration scroll, settle, read the next height
(`r 0, r 1, ...`); strict growth resets a patience counter, otherwise it
is incremented and the loop breaks once it reaches 3.
`yandex_scraper_local.py` implements a different loop with no height
probe: it scrolls and stops early only when a `Show more` element is
displayed. -/

/-- The value of `last_height` before iteration `k` of the height-check
loop: `h0` initially, then the running maximum of the readings (the
source only replaces `last_height` on strict growth). -/
def lastAt (r : Nat → Nat) (h0 : Nat) : Nat → Nat
  | 0 => h0
  | k + 1 => max (lastAt r h0 k) (r k)

/-- The value of `no_change_count` after iteration `k` of the height-check
loop: reset to 0 by growth, incremented otherwise. -/
def patienceAt (r : Nat → Nat) (h0 : Nat) : Nat → Nat
  | 0 => 0
  | k + 1 => if lastAt r h0 k < r k then 0 else patienceAt r h0 k + 1

/-- The height-check loop body from `yandex_image_scraper.py` lines
231-258 (`yandex_image_scraper-v2.py` lines 165-183), counting executed
iterations: `k` is the next reading index, `last` is `last_height`, `p`
is `no_change_count`, and the fuel is the remaining `range(max_scrolls)`
budget.  `new_height > last_height` resets the patience, otherwise it is
incremented and `no_change_count >= 3` breaks. -/
def scrollLoop (r : Nat → Nat) : Nat → Nat → Nat → Nat → Nat
  | _, _, _, 0 => 0
  | k, last, p, f + 1 =>
    if last < r k then scrollLoop r (k + 1) (r k) 0 f + 1
    else if 3 ≤ p + 1 then 1
    else scrollLoop r (k + 1) last (p + 1) f + 1

/-- Number of growth-trigger iterations executed by
`step3_scroll_until_show_more(max_scrolls)` in the height-check variants. -/
def step3Iters (r : Nat → Nat) (h0 maxScrolls : Nat) : Nat :=
  scrollLoop r 0 h0 0 maxScrolls

/-- First index `n` in `(k, k+f]` at which the patience trace reaches 3,
if any: the only early-exit point of the height-check loop. -/
def firstHalt (r : Nat → Nat) (h0 : Nat) : Nat → Nat → Option Nat
  | _, 0 => none
  | k, f + 1 =>
    if patienceAt r h0 (k + 1) = 3 then some (k + 1)
    else firstHalt r h0 (k + 1) f

/-- The loop of `yandex_scraper_local.py` lines 221-242: scroll, then stop
(returning after this iteration) when the `Show more` probe fires;
otherwise continue until the budget runs out.  `showMore k` is whether the
button is displayed after scroll `k`; heights are never read. -/
def localScrollLoop (showMore : Nat → Bool) : Nat → Nat → Nat
  | _, 0 => 0
  | k, f + 1 =>
    if showMore k then 1
    else localScrollLoop showMore (k + 1) f + 1

/-! ### Ordinal re-acquisition (`step5_to_10_process_thumbnail`, stale
element protection in `yandex_image_scraper.py` lines 303-325 and
`yandex_image_scraper-v2.py` lines 214-226) -/

/-- Re-acquire the thumbnail at 1-based position `k`: for each selector's
fresh `find_elements` result in order, the first list with
`len(elements) >= index` supplies `elements[index - 1]`; if no selector
materialises at least `k` elements the ordinal is given up (`None`,
the source returns `False`). -/
def reacquire (qss : List (List Handle)) (k : Nat) : Option Handle :=
  match qss with
  | [] => none
  | l :: rest => if k ≤ l.length then l.get? (k - 1) else reacquire rest k

/-! ### Similarity scorer (`compare_images`, `yandex_scraper_local.py`
lines 58-80) -/

/-- Hamming distance between two bit vectors: the value of
`imagehash` hash subtraction. -/
def hamming (a b : List Bool) : Nat :=
  ((a.zip b).filter (fun p => p.1 != p.2)).length

/-- `compare_images(img1_data, img2_data, threshold)`: decode both
payloads, hash both, and compare the hash distance against the threshold;
any failure inside the `try` block (modelled by `decode` or `ahash`
returning `none`) is swallowed and the function returns `True`
("assume match if comparison fails").  Total by construction: the
source's bare `except` guarantees a boolean return. -/
def compare_images (decode : Img → Option Img) (ahash : Img → Option (List Bool))
    (d1 d2 : Img) (threshold : Nat) : Bool :=
  match decode d1, decode d2 with
  | some i1, some i2 =>
    match ahash i1, ahash i2 with
    | some h1, some h2 => decide (hamming h1 h2 ≤ threshold)
    | _, _ => true
  | _, _ => true

/-! ### Candidate resolution (`step5_to_10_process_thumbnail`)

The per-ordinal outcome is labelled with the spec's tier vocabulary:
`Resolved` for a save out of the hi-fidelity window, `FallbackUsed` for a
save of the preview or thumbnail in the fallback block, `Unresolved` when
nothing is saved. -/

/-- Spec tier that produced the stored image for one ordinal. -/
inductive Tier
  | Resolved
  | FallbackUsed
  | Unresolved
deriving DecidableEq, Repr

/-- Outcome of processing one ordinal: tier, stored URL (if any), and the
store state afterwards. -/
structure Resolution where
  tier : Tier
  url : Option String
  st : ScraperState
deriving DecidableEq, Repr

/-- One candidate URL's contribution to the comparison loop of
`yandex_scraper_local.py` lines 527-569: `fetch` is
`download_image_data` (`None` on any network failure) and `dist t d` is
the hash distance of candidate bytes `d` to thumbnail bytes `t`
(`none` models the inner `try` failing to decode or hash). -/
def vcand (dist : Img → Img → Option Nat) (fetch : String → Option Img)
    (t : Img) (u : String) : Option (String × Img × Nat) :=
  match fetch u with
  | none => none
  | some d =>
    match dist t d with
    | none => none
    | some df => some (u, d, df)

/-- Fold step of the comparison loop: a candidate that fetched and hashed
updates the best match exactly when its distance is strictly below the
current best (`if diff < best_match_diff`). -/
def bestStep (dist : Img → Img → Option Nat) (fetch : String → Option Img)
    (t : Img) (acc : Option (String × Img) × Nat) (u : String) :
    Option (String × Img) × Nat :=
  match vcand dist fetch t u with
  | none => acc
  | some (u', d, df) => if df < acc.2 then (some (u', d), df) else acc

/-- The comparison loop over all candidate URLs, with the source's
initial `best_match = None`, `best_match_diff = 999999`. -/
def bestLoop (dist : Img → Img → Option Nat) (fetch : String → Option Img)
    (t : Img) (cands : List String) : Option (String × Img) × Nat :=
  cands.foldl (bestStep dist fetch t) (none, 999999)

/-- The candidates that fetched and hashed successfully, with their
distances, in enumeration order. -/
def validCands (dist : Img → Img → Option Nat) (fetch : String → Option Img)
    (t : Img) (cands : List String) : List (String × Img × Nat) :=
  cands.filterMap (vcand dist fetch t)

/-- Modelled from the spec's fallback-ordering words: the minimum-distance
candidate, the earliest on ties.  Used to compare the source's fold
against the spec's arg-min description. -/
def specArgmin : List (String × Img × Nat) → Option (String × Img × Nat)
  | [] => none
  | x :: rest =>
    match specArgmin rest with
    | none => some x
    | some y => if x.2.2 ≤ y.2.2 then some x else some y

/-- Fold step of the largest-image loop (`yandex_scraper_local.py` lines
594-613, the no-thumbnail branch): `sizeF d` is `width * height` of the
decoded candidate, `none` when `Image.open` fails; strict improvement
updates the record. -/
def largestStep (sizeF : Img → Option Nat) (fetch : String → Option Img)
    (acc : Nat × Option (String × Img)) (u : String) :
    Nat × Option (String × Img) :=
  match fetch u with
  | none => acc
  | some d =>
    match sizeF d with
    | none => acc
    | some sz => if acc.1 < sz then (sz, some (u, d)) else acc

/-- The largest-image loop, with the source's initial `largest_size = 0`,
`largest_data = None`. -/
def largestLoop (sizeF : Img → Option Nat) (fetch : String → Option Img)
    (cands : List String) : Nat × Option (String × Img) :=
  cands.foldl (largestStep sizeF fetch) (0, none)

/-- `yandex_scraper_local.py` lines 373-377: when the preview download
failed but the thumbnail is available, the thumbnail becomes the preview
("ultimate fallback"). -/
def normPreview (tU : Option String) (tD : Option Img)
    (pU : Option String) (pD : Option Img) : Option String × Option Img :=
  if pD.isNone && tD.isSome then (tU, tD) else (pU, pD)

/-- Thumbnail branch of the fallback block (`yandex_scraper_local.py`
lines 652-661): save the thumbnail when present and not yet downloaded. -/
def localThumbFallback (tU : Option String) (tD : Option Img) (idx : Nat)
    (s : ScraperState) : Resolution :=
  match tU, tD with
  | some u, some d =>
    if u ∈ s.downloaded_urls then ⟨Tier.Unresolved, none, s⟩
    else
      let r := save_image s u d idx
      if r.1 then ⟨Tier.FallbackUsed, some u, r.2⟩
      else ⟨Tier.Unresolved, none, r.2⟩
  | _, _ => ⟨Tier.Unresolved, none, s⟩

/-- Fallback block of `yandex_scraper_local.py` lines 641-661: prefer the
(normalised) preview when present and not yet downloaded, else the
thumbnail; the `elif` means a preview already in the dedup set falls to
the thumbnail, while a failed preview save ends the ordinal. -/
def localFallback (pU : Option String) (pD : Option Img)
    (tU : Option String) (tD : Option Img) (idx : Nat)
    (s : ScraperState) : Resolution :=
  match pU, pD with
  | some u, some d =>
    if u ∈ s.downloaded_urls then localThumbFallback tU tD idx s
    else
      let r := save_image s u d idx
      if r.1 then ⟨Tier.FallbackUsed, some u, r.2⟩
      else ⟨Tier.Unresolved, none, r.2⟩
  | _, _ => localThumbFallback tU tD idx s

/-- Per-ordinal resolution of `yandex_scraper_local.py` (lines 519-661):
inside an opened hi-fidelity window, with the thumbnail available the
comparison loop picks a best match saved iff its distance is at most 15;
with no thumbnail the largest image is saved; in every other case, and
whenever nothing was saved, the fallback block runs. -/
def localResolve (dist : Img → Img → Option Nat) (sizeF : Img → Option Nat)
    (tU : Option String) (tD : Option Img)
    (pU0 : Option String) (pD0 : Option Img)
    (windowOpened : Bool) (cands : List String)
    (fetch : String → Option Img) (idx : Nat) (s : ScraperState) :
    Resolution :=
  let pn := normPreview tU tD pU0 pD0
  let hifi : Option (String × Img) :=
    if windowOpened then
      match tD with
      | some t =>
        if cands.isEmpty then none
        else
          match bestLoop dist fetch t cands with
          | (some (u, d), bd) => if bd ≤ 15 then some (u, d) else none
          | (none, _) => none
      | none =>
        if cands.isEmpty then none
        else (largestLoop sizeF fetch cands).2
    else none
  match hifi with
  | some (u, d) =>
    let r := save_image s u d idx
    if r.1 then ⟨Tier.Resolved, some u, r.2⟩
    else localFallback pn.1 pn.2 tU tD idx r.2
  | none => localFallback pn.1 pn.2 tU tD idx s

/-- Preview fallback of `yandex_image_scraper.py` lines 486-489 and
`yandex_image_scraper-v2.py` lines 331-334: save the preview when
present; no dedup pre-check, so a duplicate save simply fails and the
ordinal ends unresolved. -/
def v2Fallback (pU : Option String) (pD : Option Img) (idx : Nat)
    (s : ScraperState) : Resolution :=
  match pU, pD with
  | some u, some d =>
    let r := save_image s u d idx
    if r.1 then ⟨Tier.FallbackUsed, some u, r.2⟩
    else ⟨Tier.Unresolved, none, r.2⟩
  | _, _ => ⟨Tier.Unresolved, none, s⟩

/-- Per-ordinal resolution of `yandex_image_scraper.py` lines 452-489 and
`yandex_image_scraper-v2.py` lines 309-334: inside an opened hi-fidelity
window the FIRST enumerated candidate whose fetch succeeds is saved, with
no similarity scoring; otherwise the preview fallback runs. -/
def v2Resolve (pU : Option String) (pD : Option Img)
    (windowOpened : Bool) (cands : List String)
    (fetch : String → Option Img) (idx : Nat) (s : ScraperState) :
    Resolution :=
  let hifi : Option (String × Img) :=
    if windowOpened then
      match cands with
      | [] => none
      | u :: _ =>
        match fetch u with
        | some d => some (u, d)
        | none => none
    else none
  match hifi with
  | some (u, d) =>
    let r := save_image s u d idx
    if r.1 then ⟨Tier.Resolved, some u, r.2⟩
    else v2Fallback pU pD idx r.2
  | none => v2Fallback pU pD idx s

/-! ### Browsing-context bookkeeping (`window_handles` management) -/

/-- Open browser windows (first opened first) and the focused window. -/
structure WinState where
  windows : List Nat
  focus : Nat
deriving DecidableEq, Repr

/-- The download-click phase of `yandex_image_scraper-v2.py` lines
296-328 (`yandex_image_scraper.py` lines 433-483 is identical in window
handling): clicking may open new windows; the first new one is focused
and processed, then closed with focus returned to `mainW`.  When an
exception interrupts the processing (`raiseInWindow`), the handler only
switches focus back to `mainW` when more than one window is open: the
secondary window is never closed. -/
def v2DownloadPhase (mainW : Nat) (newWins : List Nat) (raiseInWindow : Bool)
    (s : WinState) : WinState :=
  let s1 : WinState := ⟨s.windows ++ newWins, s.focus⟩
  match newWins with
  | [] => s1
  | w :: _ =>
    let s2 : WinState := ⟨s1.windows, w⟩
    if raiseInWindow then
      if s2.windows.length > 1 then ⟨s2.windows, mainW⟩ else s2
    else ⟨s2.windows.erase w, mainW⟩

/-- The outer recovery of `yandex_scraper_local.py` lines 706-714:
`while len(window_handles) > 1` switch to the last handle and close it,
then focus the main window — every secondary context is closed. -/
def localRecover (mainW : Nat) (s : WinState) : WinState :=
  ⟨s.windows.take 1, mainW⟩

/-! ### Run orchestration (`scrape`, all three files) -/

/-- Environment of one run: whether driver setup succeeds, whether Step 1
succeeds, how many thumbnails Step 4 finds, and whether an exception
escapes the per-ordinal loop. -/
structure RunEnv where
  setupOk : Bool
  step1Ok : Bool
  thumbCount : Nat
  loopRaises : Bool

/-- How the `try` body of `scrape` ends. -/
inductive RunFlow
  | finished
  | earlyReturn
  | raised
deriving DecidableEq, Repr

/-- Driver lifecycle state: whether `self.driver` was assigned and how
many times `quit()` ran. -/
structure DriverSt where
  created : Bool
  quits : Nat
deriving DecidableEq, Repr

/-- The `try` body of `scrape`: `setup_driver` may raise before
`self.driver` is assigned; a Step 1 failure and an empty thumbnail list
return early; `step2`/`step3`/`step4` catch their own errors and always
return.  An exception anywhere later propagates. -/
def scrapeBody (env : RunEnv) : DriverSt × RunFlow :=
  if env.setupOk then
    let s : DriverSt := ⟨true, 0⟩
    if env.step1Ok then
      if env.thumbCount = 0 then (s, RunFlow.earlyReturn)
      else if env.loopRaises then (s, RunFlow.raised)
      else (s, RunFlow.finished)
    else (s, RunFlow.earlyReturn)
  else (⟨false, 0⟩, RunFlow.raised)

/-- `scrape` with its `finally`: whatever the body did, quit the driver
exactly once when it exists (`if self.driver: self.driver.quit()`). -/
def scrape (env : RunEnv) : DriverSt × RunFlow :=
  let (s, f) := scrapeBody env
  (if s.created then ⟨s.created, s.quits + 1⟩ else s, f)

/-! ### Supporting lemmas about the dedup store -/

theorem save_image_mem (s : ScraperState) (u : String) (d : Img) (i : Nat)
    (x : String) :
    x ∈ ((save_image s u d i).2).downloaded_urls ↔
      x = u ∨ x ∈ s.downloaded_urls := by
  unfold save_image
  by_cases h : u ∈ s.downloaded_urls
  · simp only [if_pos h]
    exact ⟨Or.inr, fun hx => hx.elim (fun he => he ▸ h) id⟩
  · simp [if_neg h]

theorem save_image_nodup (s : ScraperState) (u : String) (d : Img) (i : Nat)
    (h : s.downloaded_urls.Nodup) :
    ((save_image s u d i).2).downloaded_urls.Nodup := by
  unfold save_image
  by_cases hu : u ∈ s.downloaded_urls
  · simpa [if_pos hu] using h
  · simpa [if_neg hu] using ⟨hu, h⟩

theorem save_image_count (s : ScraperState) (u : String) (d : Img) (i : Nat)
    (h : s.downloaded_count = s.downloaded_urls.length) :
    ((save_image s u d i).2).downloaded_count =
      ((save_image s u d i).2).downloaded_urls.length := by
  unfold save_image
  by_cases hu : u ∈ s.downloaded_urls
  · simpa [if_pos hu] using h
  · simpa [if_neg hu] using h

theorem runSaves_mem (calls : List (String × Img × Nat)) :
    ∀ (s : ScraperState) (x : String),
      x ∈ (runSaves s calls).downloaded_urls ↔
        x ∈ s.downloaded_urls ∨ x ∈ calls.map (fun c => c.1) := by
  induction calls with
  | nil => intro s x; simp [runSaves]
  | cons c rest ih =>
    intro s x
    rcases c with ⟨u, d, i⟩
    rw [runSaves, ih, save_image_mem]
    simp
    tauto

theorem runSaves_mono (calls : List (String × Img × Nat)) (s : ScraperState)
    (x : String) (h : x ∈ s.downloaded_urls) :
    x ∈ (runSaves s calls).downloaded_urls :=
  (runSaves_mem calls s x).mpr (Or.inl h)

theorem runSaves_nodup (calls : List (String × Img × Nat)) :
    ∀ s : ScraperState, s.downloaded_urls.Nodup →
      (runSaves s calls).downloaded_urls.Nodup := by
  induction calls with
  | nil => intro s h; simpa [runSaves] using h
  | cons c rest ih =>
    intro s h
    rcases c with ⟨u, d, i⟩
    exact ih _ (save_image_nodup s u d i h)

theorem runSaves_count (calls : List (String × Img × Nat)) :
    ∀ s : ScraperState, s.downloaded_count = s.downloaded_urls.length →
      (runSaves s calls).downloaded_count =
        (runSaves s calls).downloaded_urls.length := by
  induction calls with
  | nil => intro s h; simpa [runSaves] using h
  | cons c rest ih =>
    intro s h
    rcases c with ⟨u, d, i⟩
    exact ih _ (save_image_count s u d i h)

/-- C2: in one run the first accept of a URL returns stored (`True`), every
later accept of the exact same URL returns duplicate (`False`) leaving the
state — in particular the files and the count — unchanged, and the
accepted URLs of any run are pairwise distinct.  String comparison in the
model, as in Python's `set`, is exact and case-sensitive. -/
theorem c2_dedup (pre : List (String × Img × Nat)) (u : String) (d : Img)
    (i : Nat) (hu : u ∉ (runSaves initState pre).downloaded_urls) :
    (save_image (runSaves initState pre) u d i).1 = true ∧
    (∀ (mid : List (String × Img × Nat)) (d' : Img) (i' : Nat),
      (save_image
        (runSaves (save_image (runSaves initState pre) u d i).2 mid) u d' i').1 =
        false ∧
      (save_image
        (runSaves (save_image (runSaves initState pre) u d i).2 mid) u d' i').2 =
        runSaves (save_image (runSaves initState pre) u d i).2 mid) ∧
    (∀ calls : List (String × Img × Nat),
      (runSaves initState calls).downloaded_urls.Nodup) := by
  refine ⟨?_, ?_, ?_⟩
  · unfold save_image
    simp [hu]
  · intro mid d' i'
    have hmem : u ∈ (runSaves (save_image (runSaves initState pre) u d i).2
        mid).downloaded_urls := by
      apply runSaves_mono
      rw [save_image_mem]
      exact Or.inl rfl
    generalize hX : runSaves (save_image (runSaves initState pre) u d i).2 mid
        = X at hmem ⊢
    constructor
    · simp [save_image, hmem]
    · simp [save_image, hmem]
  · intro calls
    exact runSaves_nodup calls initState (by simp [initState])

/-- C2 witness: a concrete first accept stores, and the immediate re-accept
of the same URL is a duplicate. -/
theorem c2_witness :
    (save_image initState "http://a/x.jpg" 5 1).1 = true ∧
    (save_image (save_image initState "http://a/x.jpg" 5 1).2
      "http://a/x.jpg" 6 2).1 = false := by
  have h := c2_dedup [] "http://a/x.jpg" 5 1 (by decide)
  exact ⟨h.1, (h.2.1 [] 6 2).1⟩

/-- C10: at every point of a run `downloaded_count` equals the number of
URLs in `downloaded_urls` (which are pairwise distinct), and every single
`save_image` call either stores a fresh URL — prepending it and bumping
the counter by one, returning `True` — or returns `False` leaving the
state untouched. -/
theorem c10_invariant :
    (∀ calls : List (String × Img × Nat),
      (runSaves initState calls).downloaded_count =
        (runSaves initState calls).downloaded_urls.length ∧
      (runSaves initState calls).downloaded_urls.Nodup) ∧
    (∀ (s : ScraperState) (u : String) (d : Img) (i : Nat),
      ((save_image s u d i).1 = true ∧ u ∉ s.downloaded_urls ∧
        (save_image s u d i).2.downloaded_urls = u :: s.downloaded_urls ∧
        (save_image s u d i).2.downloaded_count = s.downloaded_count + 1) ∨
      ((save_image s u d i).1 = false ∧ (save_image s u d i).2 = s)) := by
  constructor
  · intro calls
    exact ⟨runSaves_count calls initState (by simp [initState]),
      runSaves_nodup calls initState (by simp [initState])⟩
  · intro s u d i
    by_cases hu : u ∈ s.downloaded_urls
    · right; unfold save_image; simp [hu]
    · left; unfold save_image; simp [hu]

/-- C3 counterexample: at url `http://e.com/a.txt` and ordinal 1 the code
derives `yandex_0001.txt` — the prefix is `yandex_`, not `result_`, and
the unrecognised `.txt` extension is kept rather than replaced by the
default — so the filename is neither `result_0001.txt` nor
`result_0001.jpg`, refuting the claimed `result_{ordinal:04d}{ext}` form. -/
theorem c3_counterexample :
    deriveFilename "http://e.com/a.txt" 1 = "yandex_0001.txt" ∧
    deriveFilename "http://e.com/a.txt" 1 ≠ "result_0001.txt" ∧
    deriveFilename "http://e.com/a.txt" 1 ≠ "result_0001.jpg" := by
  decide

/-- C3 amended: the assigned filename is a deterministic function of
`(url, ordinal)` only — the same name regardless of payload or store
state — of the form `yandex_{ordinal:04d}{ext}`, where `ext` is the URL
path's extension taken verbatim (recognised or not) and `.jpg` is used
exactly when the path has no extension. -/
theorem c3_amended (url : String) (idx : Nat) (d1 d2 : Img)
    (s1 s2 : ScraperState) (h1 : url ∉ s1.downloaded_urls)
    (h2 : url ∉ s2.downloaded_urls) :
    (save_image s1 url d1 idx).2.files =
      writeFile s1.files (deriveFilename url idx) d1 ∧
    (save_image s2 url d2 idx).2.files =
      writeFile s2.files (deriveFilename url idx) d2 ∧
    deriveFilename url idx = "yandex_" ++ pad4 idx ++ deriveExt url ∧
    (pathSuffix (urlparsePath url) = "" → deriveExt url = ".jpg") ∧
    (∀ e, pathSuffix (urlparsePath url) = e → e ≠ "" → e ≠ "." →
      deriveExt url = e) := by
  refine ⟨by simp [save_image, h1], by simp [save_image, h2], rfl, ?_, ?_⟩
  · intro h
    simp [deriveExt, h]
  · intro e he hne hnd
    simp [deriveExt, he, hne, hnd]

/-- C3 witness: a stored image lands under the name derived from
`(url, ordinal)` alone. -/
theorem c3_witness :
    (save_image initState "http://h/i.png" 9 7).2.files =
      writeFile initState.files (deriveFilename "http://h/i.png" 7) 9 ∧
    deriveFilename "http://h/i.png" 7 = "yandex_0007.png" := by
  have h := c3_amended "http://h/i.png" 7 9 9 initState initState
    (by decide) (by decide)
  exact ⟨h.1, by decide⟩

/-- C5: re-acquisition of ordinal `k` (with `k ≥ 1`, as ordinals are
1-based) over the fresh per-selector query results `qss` yields `none`
exactly when every selector materialises fewer than `k` elements — never
an out-of-range access, since the source guards `len(elements) >= index`
before `elements[index - 1]`; any handle returned comes from one of the
freshly queried lists; and when some selector materialises at least `k`
elements the handle is position `k - 1` of the first such list. -/
theorem c5_acquire (qss : List (List Handle)) (k : Nat) (hk : 1 ≤ k) :
    (reacquire qss k = none ↔ ∀ l ∈ qss, l.length < k) ∧
    (∀ h, reacquire qss k = some h → ∃ l ∈ qss, h ∈ l) ∧
    (∀ pre l post, qss = pre ++ l :: post → (∀ l' ∈ pre, l'.length < k) →
      k ≤ l.length →
      reacquire qss k = l.get? (k - 1) ∧ (l.get? (k - 1)).isSome = true) := by
  refine ⟨?_, ?_, ?_⟩
  · induction qss with
    | nil => simp [reacquire]
    | cons l rest ih =>
      simp only [reacquire]
      by_cases hl : k ≤ l.length
      · rw [if_pos hl]
        have hlt : k - 1 < l.length := by omega
        rw [List.get?_eq_get hlt]
        constructor
        · intro h
          exact absurd h (by simp)
        · intro h
          exact absurd (h l (List.mem_cons_self l rest)) (by omega)
      · rw [if_neg hl, ih]
        constructor
        · intro h l' hl'
          rcases List.mem_cons.mp hl' with rfl | h2
          · omega
          · exact h l' h2
        · intro h l' hl'
          exact h l' (List.mem_cons_of_mem l hl')
  · induction qss with
    | nil =>
      intro h hh
      simp [reacquire] at hh
    | cons l rest ih =>
      intro h hh
      simp only [reacquire] at hh
      by_cases hl : k ≤ l.length
      · rw [if_pos hl] at hh
        exact ⟨l, List.mem_cons_self l rest, List.get?_mem hh⟩
      · rw [if_neg hl] at hh
        rcases ih h hh with ⟨l', hl', hm⟩
        exact ⟨l', List.mem_cons_of_mem l hl', hm⟩
  · intro pre
    induction pre generalizing qss with
    | nil =>
      intro l post heq hpre hl
      subst heq
      have hlt : k - 1 < l.length := by omega
      simp only [List.nil_append, reacquire]
      rw [if_pos hl, List.get?_eq_get hlt]
      simp
    | cons l0 pre' ih =>
      intro l post heq hpre hl
      subst heq
      have h0 : l0.length < k := hpre l0 (List.mem_cons_self l0 pre')
      simp only [List.cons_append, reacquire]
      rw [if_neg (by omega)]
      exact ih (pre' ++ l :: post) l post rfl
        (fun l' hl' => hpre l' (List.mem_cons_of_mem l0 hl')) hl

/-- C5 witness: with selector results `[10,20,30]` and `[1,...,7]`,
ordinal 5 resolves to the fifth element of the second list, and with
results `[10,20,30]` and `[1,2]` it is NotFound. -/
theorem c5_witness :
    reacquire [[10, 20, 30], [1, 2, 3, 4, 5, 6, 7]] 5 = some 5 ∧
    reacquire [[10, 20, 30], [1, 2]] 5 = none := by
  constructor
  · have h := (c5_acquire [[10, 20, 30], [1, 2, 3, 4, 5, 6, 7]] 5
      (by decide)).2.2 [[10, 20, 30]] [1, 2, 3, 4, 5, 6, 7] [] rfl
      (by decide) (by decide)
    rw [h.1]
    decide
  · exact (c5_acquire [[10, 20, 30], [1, 2]] 5 (by decide)).1.mpr (by decide)

/-- C6: at the failing input — the download click opens one secondary
window and an exception interrupts the work inside it — the exception
handler of `yandex_image_scraper-v2.py` lines 327-328 (and
`yandex_image_scraper.py` lines 480-483) only refocuses the primary
window and leaves the secondary window open: the session ends the ordinal
with two open contexts, not its single primary context.  The normal path
does close it, and `yandex_scraper_local.py`'s recovery closes every
secondary context. -/
theorem c6_leak :
    v2DownloadPhase 0 [1] true ⟨[0], 0⟩ = ⟨[0, 1], 0⟩ ∧
    (v2DownloadPhase 0 [1] true ⟨[0], 0⟩).windows.length ≠ 1 ∧
    v2DownloadPhase 0 [1] false ⟨[0], 0⟩ = ⟨[0], 0⟩ ∧
    localRecover 0 ⟨[0, 1], 0⟩ = ⟨[0], 0⟩ := by
  decide

/-- C7: for every run environment — setup failure, Step 1 failure, no
thumbnails, an exception escaping the loop, or completion — the
`finally` block quits a created driver exactly once, and never quits a
driver that was not created. -/
theorem c7_teardown (env : RunEnv) :
    ((scrape env).1.created = true → (scrape env).1.quits = 1) ∧
    ((scrape env).1.created = false → (scrape env).1.quits = 0) ∧
    (scrape env).1.created = env.setupOk := by
  rcases env with ⟨su, s1, tc, lr⟩
  cases su <;> cases s1 <;> cases lr <;> by_cases htc : tc = 0 <;>
    simp [scrape, scrapeBody, htc]

/-- C7 witness: a run failing at Step 1 still quits its driver once, and a
run whose setup raised never quits. -/
theorem c7_witness :
    (scrape ⟨true, false, 0, false⟩).1.quits = 1 ∧
    (scrape ⟨false, true, 3, true⟩).1.quits = 0 :=
  ⟨(c7_teardown ⟨true, false, 0, false⟩).1 (by decide),
   (c7_teardown ⟨false, true, 3, true⟩).2.1 (by decide)⟩

/-- C9: `compare_images` is total — the bare `except` returns `True` on
any failure — so if either payload fails to decode, or hashing fails on
either decoded image, the result is `True` (the inputs are treated as
matching); when both decode and hash, the result is exactly whether the
hash distance is at most the threshold. -/
theorem c9_compare (decode : Img → Option Img)
    (ahash : Img → Option (List Bool)) (d1 d2 : Img) (thr : Nat) :
    ((decode d1 = none ∨ decode d2 = none) →
      compare_images decode ahash d1 d2 thr = true) ∧
    (∀ i1 i2, decode d1 = some i1 → decode d2 = some i2 →
      (ahash i1 = none ∨ ahash i2 = none) →
      compare_images decode ahash d1 d2 thr = true) ∧
    (∀ i1 i2 h1 h2, decode d1 = some i1 → decode d2 = some i2 →
      ahash i1 = some h1 → ahash i2 = some h2 →
      (compare_images decode ahash d1 d2 thr = true ↔
        hamming h1 h2 ≤ thr)) := by
  refine ⟨?_, ?_, ?_⟩
  · intro h
    rcases hd1 : decode d1 with _ | i1
    · simp [compare_images, hd1]
    · rcases hd2 : decode d2 with _ | i2
      · simp [compare_images, hd1, hd2]
      · rcases h with h | h
        · rw [hd1] at h; exact absurd h (by simp)
        · rw [hd2] at h; exact absurd h (by simp)
  · intro i1 i2 hd1 hd2 hh
    rcases hh with hh | hh <;>
      rcases ha1 : ahash i1 with _ | a1 <;>
        rcases ha2 : ahash i2 with _ | a2 <;>
          simp_all [compare_images]
  · intro i1 i2 h1 h2 hd1 hd2 ha1 ha2
    simp [compare_images, hd1, hd2, ha1, ha2]

/-- C9 witness: undecodable inputs compare as matching, and decodable
inputs with identical hashes satisfy the threshold test. -/
theorem c9_witness :
    compare_images (fun _ => none) (fun _ => none) 0 1 10 = true ∧
    compare_images some (fun _ => some [true]) 0 1 10 = true := by
  constructor
  · exact (c9_compare (fun _ => none) (fun _ => none) 0 1 10).1 (Or.inl rfl)
  · exact ((c9_compare some (fun _ => some [true]) 0 1 10).2.2 0 1 [true]
      [true] rfl rfl rfl rfl).mpr (by decide)

/-! ### Supporting lemmas about the convergence loops -/

theorem scrollLoop_le (r : Nat → Nat) :
    ∀ (f k last p : Nat), scrollLoop r k last p f ≤ f := by
  intro f
  induction f with
  | zero => intro k last p; simp [scrollLoop]
  | succ f ih =>
    intro k last p
    simp only [scrollLoop]
    split
    · exact Nat.succ_le_succ (ih _ _ _)
    · split
      · omega
      · exact Nat.succ_le_succ (ih _ _ _)

theorem firstHalt_bounds (r : Nat → Nat) (h0 : Nat) :
    ∀ (f k n : Nat), firstHalt r h0 k f = some n → k < n ∧ n ≤ k + f := by
  intro f
  induction f with
  | zero => intro k n h; simp [firstHalt] at h
  | succ f ih =>
    intro k n h
    simp only [firstHalt] at h
    split at h
    · simp at h
      omega
    · have := ih (k + 1) n h
      omega

theorem firstHalt_spec_some (r : Nat → Nat) (h0 : Nat) :
    ∀ (f k n : Nat), firstHalt r h0 k f = some n →
      patienceAt r h0 n = 3 ∧ ∀ m, k < m → m < n → patienceAt r h0 m ≠ 3 := by
  intro f
  induction f with
  | zero => intro k n h; simp [firstHalt] at h
  | succ f ih =>
    intro k n h
    simp only [firstHalt] at h
    split at h
    · rename_i hp
      simp at h
      subst h
      exact ⟨hp, fun m h1 h2 => by omega⟩
    · rename_i hp
      rcases ih (k + 1) n h with ⟨h3, hmin⟩
      refine ⟨h3, fun m h1 h2 => ?_⟩
      rcases Nat.eq_or_lt_of_le h1 with heq | hlt
      · rw [← heq]
        exact hp
      · exact hmin m hlt h2

theorem firstHalt_spec_none (r : Nat → Nat) (h0 : Nat) :
    ∀ (f k : Nat), firstHalt r h0 k f = none →
      ∀ m, k < m → m ≤ k + f → patienceAt r h0 m ≠ 3 := by
  intro f
  induction f with
  | zero => intro k h m h1 h2; omega
  | succ f ih =>
    intro k h m h1 h2
    simp only [firstHalt] at h
    split at h
    · simp at h
    · rename_i hp
      rcases Nat.eq_or_lt_of_le h1 with heq | hlt
      · rw [← heq]
        exact hp
      · exact ih (k + 1) h m hlt (by omega)

theorem firstHalt_complete (r : Nat → Nat) (h0 : Nat) :
    ∀ (f k n : Nat), k < n → n ≤ k + f → patienceAt r h0 n = 3 →
      (∀ m, k < m → m < n → patienceAt r h0 m ≠ 3) →
      firstHalt r h0 k f = some n := by
  intro f
  induction f with
  | zero => intro k n h1 h2 h3 h4; omega
  | succ f ih =>
    intro k n h1 h2 h3 h4
    simp only [firstHalt]
    by_cases hp : patienceAt r h0 (k + 1) = 3
    · rw [if_pos hp]
      have : n = k + 1 := by
        by_contra hne
        exact h4 (k + 1) (by omega) (by omega) hp
      rw [this]
    · rw [if_neg hp]
      have hne : n ≠ k + 1 := fun he => hp (he ▸ h3)
      exact ih (k + 1) n (by omega) (by omega) h3
        (fun m hm1 hm2 => h4 m (by omega) hm2)

theorem scrollLoop_trace (r : Nat → Nat) (h0 : Nat) :
    ∀ (f k : Nat), patienceAt r h0 k < 3 →
      scrollLoop r k (lastAt r h0 k) (patienceAt r h0 k) f =
        ((firstHalt r h0 k f).map (fun n => n - k)).getD f := by
  intro f
  induction f with
  | zero => intro k hp; simp [scrollLoop, firstHalt]
  | succ f ih =>
    intro k hp
    simp only [scrollLoop, firstHalt]
    by_cases hg : lastAt r h0 k < r k
    · rw [if_pos hg]
      have hl : lastAt r h0 (k + 1) = r k := by
        simp only [lastAt]
        exact Nat.max_eq_right (Nat.le_of_lt hg)
      have hpa : patienceAt r h0 (k + 1) = 0 := by
        simp only [patienceAt]
        rw [if_pos hg]
      have h3 : ¬ patienceAt r h0 (k + 1) = 3 := by omega
      rw [if_neg h3]
      have htr := ih (k + 1) (by omega)
      rw [hl, hpa] at htr
      rw [htr]
      cases hfh : firstHalt r h0 (k + 1) f with
      | none => simp
      | some n =>
        have hb := firstHalt_bounds r h0 f (k + 1) n hfh
        simp only [Option.map_some', Option.getD_some]
        omega
    · rw [if_neg hg]
      have hl : lastAt r h0 (k + 1) = lastAt r h0 k := by
        simp only [lastAt]
        exact Nat.max_eq_left (Nat.le_of_not_lt hg)
      have hpa : patienceAt r h0 (k + 1) = patienceAt r h0 k + 1 := by
        simp only [patienceAt]
        rw [if_neg hg]
      by_cases hb : 3 ≤ patienceAt r h0 k + 1
      · rw [if_pos hb]
        have h3 : patienceAt r h0 (k + 1) = 3 := by omega
        rw [if_pos h3]
        simp only [Option.map_some', Option.getD_some]
        omega
      · rw [if_neg hb]
        have h3 : ¬ patienceAt r h0 (k + 1) = 3 := by omega
        rw [if_neg h3]
        have htr := ih (k + 1) (by omega)
        rw [hl, hpa] at htr
        rw [htr]
        cases hfh : firstHalt r h0 (k + 1) f with
        | none => simp
        | some n =>
          have hbb := firstHalt_bounds r h0 f (k + 1) n hfh
          simp only [Option.map_some', Option.getD_some]
          omega

theorem step3_trace (r : Nat → Nat) (h0 maxS : Nat) :
    step3Iters r h0 maxS = (firstHalt r h0 0 maxS).getD maxS := by
  have htr := scrollLoop_trace r h0 maxS 0 (by simp [patienceAt])
  rw [show lastAt r h0 0 = h0 from rfl, show patienceAt r h0 0 = 0 from rfl]
    at htr
  rw [step3Iters, htr]
  cases firstHalt r h0 0 maxS with
  | none => rfl
  | some n => simp

theorem localScrollLoop_le (sm : Nat → Bool) :
    ∀ (f k : Nat), localScrollLoop sm k f ≤ f := by
  intro f
  induction f with
  | zero => intro k; simp [localScrollLoop]
  | succ f ih =>
    intro k
    simp only [localScrollLoop]
    split
    · omega
    · exact Nat.succ_le_succ (ih _)

theorem localScrollLoop_all_false (sm : Nat → Bool) :
    ∀ (f k : Nat), (∀ j, j < f → sm (k + j) = false) →
      localScrollLoop sm k f = f := by
  intro f
  induction f with
  | zero => intro k h; simp [localScrollLoop]
  | succ f ih =>
    intro k h
    simp only [localScrollLoop]
    rw [if_neg (by simpa using h 0 (by omega))]
    rw [ih (k + 1) (fun j hj => by
      have := h (j + 1) (by omega)
      rwa [show k + (j + 1) = k + 1 + j by omega] at this)]

theorem localScrollLoop_first (sm : Nat → Bool) :
    ∀ (f k n : Nat), n < f → sm (k + n) = true →
      (∀ m, m < n → sm (k + m) = false) →
      localScrollLoop sm k f = n + 1 := by
  intro f
  induction f with
  | zero => intro k n h; omega
  | succ f ih =>
    intro k n hn ht hmin
    simp only [localScrollLoop]
    cases n with
    | zero =>
      simp at ht
      rw [if_pos ht]
    | succ n' =>
      rw [if_neg (by simpa using hmin 0 (by omega))]
      rw [ih (k + 1) n' (by omega) (by
        rwa [show k + 1 + n' = k + (n' + 1) by omega]) (fun m hm => by
        have := hmin (m + 1) (by omega)
        rwa [show k + (m + 1) = k + 1 + m by omega] at this)]

/-- C4 counterexample: with the page extent constant at 7 (no growth
ever), the patience trace reaches 3 at probe 3 and the height-check loop
duly halts after 3 iterations; but the loop of `yandex_scraper_local.py`
performs no extent probe at all — with no `Show more` element it runs all
10 budgeted iterations, continuing long past the three consecutive
non-growing probes. -/
theorem c4_counterexample :
    patienceAt (fun _ => 7) 7 3 = 3 ∧
    step3Iters (fun _ => 7) 7 10 = 3 ∧
    localScrollLoop (fun _ => false) 0 10 = 10 ∧
    localScrollLoop (fun _ => false) 0 10 ≠ 3 := by
  decide

/-- C4 amended: the height-check loops of `yandex_image_scraper.py` and
`yandex_image_scraper-v2.py` satisfy the claim exactly — at most
`maxIterations` growth-trigger iterations, halting at the first probe
that completes three consecutive non-growing readings (the patience
trace `patienceAt`, which growth resets to 0) and running the full
budget when no such probe exists.  The loop of `yandex_scraper_local.py`
instead halts within its budget but exits early only when the
`Show more` probe first fires, irrespective of extent growth. -/
theorem c4_amended (r : Nat → Nat) (h0 maxS : Nat) :
    step3Iters r h0 maxS ≤ maxS ∧
    (∀ n, 0 < n → n ≤ maxS → patienceAt r h0 n = 3 →
      (∀ m, m < n → 0 < m → patienceAt r h0 m ≠ 3) →
      step3Iters r h0 maxS = n) ∧
    ((∀ m, m ≤ maxS → 0 < m → patienceAt r h0 m ≠ 3) →
      step3Iters r h0 maxS = maxS) ∧
    (∀ (sm : Nat → Bool) (mx : Nat),
      localScrollLoop sm 0 mx ≤ mx ∧
      ((∀ j, j < mx → sm j = false) → localScrollLoop sm 0 mx = mx) ∧
      (∀ n, n < mx → sm n = true → (∀ m, m < n → sm m = false) →
        localScrollLoop sm 0 mx = n + 1)) := by
  refine ⟨scrollLoop_le r maxS 0 h0 0, ?_, ?_, ?_⟩
  · intro n hn hmax h3 hmin
    have hfh : firstHalt r h0 0 maxS = some n :=
      firstHalt_complete r h0 maxS 0 n hn (by omega) h3
        (fun m hm1 hm2 => hmin m hm2 hm1)
    rw [step3_trace, hfh]
    rfl
  · intro hall
    cases hfh : firstHalt r h0 0 maxS with
    | none => rw [step3_trace, hfh]; rfl
    | some n =>
      have hb := firstHalt_bounds r h0 maxS 0 n hfh
      have hs := firstHalt_spec_some r h0 maxS 0 n hfh
      exact absurd hs.1 (hall n (by omega) (by omega))
  · intro sm mx
    refine ⟨localScrollLoop_le sm mx 0, ?_, ?_⟩
    · intro h
      exact localScrollLoop_all_false sm mx 0 (fun j hj => by
        simpa using h j hj)
    · intro n hn ht hmin
      exact localScrollLoop_first sm mx 0 n hn (by simpa using ht)
        (fun m hm => by simpa using hmin m hm)

/-- C4 witness: with constant readings the height-check loop halts after
exactly 3 of its 10 budgeted iterations, and with strictly growing
readings it runs the full budget. -/
theorem c4_witness :
    step3Iters (fun _ => 7) 7 10 = 3 ∧
    step3Iters (fun k => 100 + k) 99 10 = 10 := by
  constructor
  · exact (c4_amended (fun _ => 7) 7 10).2.1 3 (by decide) (by decide)
      (by decide) (by decide)
  · exact (c4_amended (fun k => 100 + k) 99 10).2.2.1 (by decide)

/-! ### Supporting lemmas about the comparison loop -/

/-- Accumulator update of the comparison loop restricted to candidates
that already fetched and hashed. -/
def pureStep (acc : Option (String × Img) × Nat) (x : String × Img × Nat) :
    Option (String × Img) × Nat :=
  if x.2.2 < acc.2 then (some (x.1, x.2.1), x.2.2) else acc

theorem validCands_cons (dist : Img → Img → Option Nat)
    (fetch : String → Option Img) (t : Img) (u : String)
    (rest : List String) :
    validCands dist fetch t (u :: rest) =
      match vcand dist fetch t u with
      | none => validCands dist fetch t rest
      | some x => x :: validCands dist fetch t rest := by
  simp only [validCands, List.filterMap_cons]
  cases vcand dist fetch t u <;> rfl

theorem bestLoop_eq_pure (dist : Img → Img → Option Nat)
    (fetch : String → Option Img) (t : Img) :
    ∀ (cands : List String) (acc : Option (String × Img) × Nat),
      cands.foldl (bestStep dist fetch t) acc =
        (validCands dist fetch t cands).foldl pureStep acc := by
  intro cands
  induction cands with
  | nil => intro acc; simp [validCands]
  | cons u rest ih =>
    intro acc
    rw [List.foldl_cons, validCands_cons]
    cases hv : vcand dist fetch t u with
    | none =>
      rw [show bestStep dist fetch t acc u = acc from by simp [bestStep, hv]]
      exact ih acc
    | some x =>
      rw [List.foldl_cons]
      rw [show bestStep dist fetch t acc u = pureStep acc x from by
        rcases x with ⟨u', d, df⟩
        simp [bestStep, hv, pureStep]]
      exact ih (pureStep acc x)

theorem pureFold_argmin :
    ∀ (l : List (String × Img × Nat)) (acc : Option (String × Img) × Nat),
      l.foldl pureStep acc =
        match specArgmin l with
        | none => acc
        | some y =>
          if y.2.2 < acc.2 then (some (y.1, y.2.1), y.2.2) else acc := by
  intro l
  induction l with
  | nil => intro acc; simp [specArgmin]
  | cons x rest ih =>
    intro acc
    rw [List.foldl_cons, ih (pureStep acc x)]
    simp only [specArgmin]
    cases hs : specArgmin rest with
    | none =>
      rfl
    | some y =>
      rcases x with ⟨xu, xd, xdf⟩
      rcases y with ⟨yu, yd, ydf⟩
      by_cases hxy : xdf ≤ ydf
      · by_cases hx : xdf < acc.2
        · have hny : ¬ ydf < xdf := by omega
          simp [pureStep, hxy, hx, hny]
        · have hny : ¬ ydf < acc.2 := by omega
          simp [pureStep, hxy, hx, hny]
      · have hy : ydf < xdf := by omega
        by_cases hx : xdf < acc.2
        · have hya : ydf < acc.2 := by omega
          simp [pureStep, hxy, hx, hy, hya]
        · simp [pureStep, hxy, hx, hy]

theorem specArgmin_eq_none :
    ∀ l : List (String × Img × Nat), specArgmin l = none ↔ l = [] := by
  intro l
  cases l with
  | nil => simp [specArgmin]
  | cons x rest =>
    simp only [specArgmin]
    cases specArgmin rest with
    | none => simp
    | some y =>
      change (if x.2.2 ≤ y.2.2 then some x else some y) = none ↔ x :: rest = []
      constructor
      · intro h
        exfalso
        by_cases hxy : x.2.2 ≤ y.2.2
        · rw [if_pos hxy] at h
          exact Option.noConfusion h
        · rw [if_neg hxy] at h
          exact Option.noConfusion h
      · intro h
        exact absurd h (List.cons_ne_nil x rest)

theorem specArgmin_min :
    ∀ (l : List (String × Img × Nat)) (y : String × Img × Nat),
      specArgmin l = some y → y ∈ l ∧ ∀ x ∈ l, y.2.2 ≤ x.2.2 := by
  intro l
  induction l with
  | nil => intro y h; simp [specArgmin] at h
  | cons x rest ih =>
    intro y h
    simp only [specArgmin] at h
    cases hs : specArgmin rest with
    | none =>
      rw [hs] at h
      simp at h
      subst h
      have hre : rest = [] := (specArgmin_eq_none rest).mp hs
      subst hre
      exact ⟨List.mem_cons_self _ _, by simp⟩
    | some z =>
      rw [hs] at h
      change (if x.2.2 ≤ z.2.2 then some x else some z) = some y at h
      rcases ih z hs with ⟨hzm, hzmin⟩
      by_cases hxz : x.2.2 ≤ z.2.2
      · rw [if_pos hxz] at h
        simp at h
        subst h
        refine ⟨List.mem_cons_self _ _, ?_⟩
        intro w hw
        rcases List.mem_cons.mp hw with rfl | hw2
        · exact le_refl _
        · exact le_trans hxz (hzmin w hw2)
      · rw [if_neg hxz] at h
        simp at h
        subst h
        refine ⟨List.mem_cons_of_mem _ hzm, ?_⟩
        intro w hw
        rcases List.mem_cons.mp hw with rfl | hw2
        · omega
        · exact hzmin w hw2

theorem bestLoop_spec (dist : Img → Img → Option Nat)
    (fetch : String → Option Img) (t : Img) (cands : List String)
    (y : String × Img × Nat)
    (hy : specArgmin (validCands dist fetch t cands) = some y)
    (hb : y.2.2 < 999999) :
    bestLoop dist fetch t cands = (some (y.1, y.2.1), y.2.2) := by
  rw [bestLoop, bestLoop_eq_pure, pureFold_argmin, hy]
  simp [hb]

theorem localResolve_thumb (dist : Img → Img → Option Nat)
    (sizeF : Img → Option Nat) (tU pU0 : Option String) (pD0 : Option Img)
    (cands : List String) (fetch : String → Option Img) (idx : Nat)
    (s : ScraperState) (t : Img) (hc : cands.isEmpty = false) :
    localResolve dist sizeF tU (some t) pU0 pD0 true cands fetch idx s =
      match bestLoop dist fetch t cands with
      | (some (u, d), bd) =>
        if bd ≤ 15 then
          (if (save_image s u d idx).1 then
            (⟨Tier.Resolved, some u, (save_image s u d idx).2⟩ : Resolution)
          else
            localFallback (normPreview tU (some t) pU0 pD0).1
              (normPreview tU (some t) pU0 pD0).2 tU (some t) idx
              (save_image s u d idx).2)
        else
          localFallback (normPreview tU (some t) pU0 pD0).1
            (normPreview tU (some t) pU0 pD0).2 tU (some t) idx s
      | (none, _) =>
        localFallback (normPreview tU (some t) pU0 pD0).1
          (normPreview tU (some t) pU0 pD0).2 tU (some t) idx s := by
  simp only [localResolve, hc, Bool.false_eq_true, if_true, if_false]
  cases hbl : bestLoop dist fetch t cands with
  | mk b bd =>
    cases b with
    | none => rfl
    | some ud =>
      rcases ud with ⟨u, d⟩
      by_cases h15 : bd ≤ 15
      · by_cases hsv : (save_image s u d idx).1
        · simp [h15, hsv]
        · simp [h15, hsv]
      · simp [h15]

/-- Concrete fetch collaborator: three candidate URLs with payloads 1-3. -/
def exFetch : String → Option Img := fun u =>
  if u = "u1" then some 1 else if u = "u2" then some 2
  else if u = "u3" then some 3 else none

/-- Concrete hash-distance collaborator: distances 22, 9 and 30 against
any reference, matching Scenario B of the spec. -/
def exDist : Img → Img → Option Nat := fun _ c =>
  if c = 1 then some 22 else if c = 2 then some 9
  else if c = 3 then some 30 else none

/-- Concrete size collaborator that never decodes. -/
def exSize : Img → Option Nat := fun _ => none

/-- Concrete fetch collaborator for the reprocessing scenario. -/
def c8Fetch : String → Option Img := fun u =>
  if u = "cu" then some 7 else none

/-- Concrete distance collaborator for the reprocessing scenario. -/
def c8Dist : Img → Img → Option Nat := fun _ c =>
  if c = 7 then some 5 else none

/-- C1 counterexample: with a ReferenceImage present (the preview, payload
50) and three candidates at hash distances 22, 9, 30 against threshold 15,
`yandex_image_scraper-v2.py` stores the FIRST candidate `u1` — whose
distance 22 exceeds both the minimum 9 and the threshold — instead of the
arg-min candidate `u2`, refuting the claimed min-distance/threshold
selection. -/
theorem c1_counterexample :
    (v2Resolve (some "pu") (some 50) true ["u1", "u2", "u3"] exFetch 5
      initState).tier = Tier.Resolved ∧
    (v2Resolve (some "pu") (some 50) true ["u1", "u2", "u3"] exFetch 5
      initState).url = some "u1" ∧
    exDist 50 1 = some 22 ∧ exDist 50 2 = some 9 ∧
    specArgmin (validCands exDist exFetch 50 ["u1", "u2", "u3"]) =
      some ("u2", 2, 9) ∧
    ¬(22 ≤ 15) ∧ (9 : Nat) < 22 := by
  decide

/-- C1 amended: in `yandex_scraper_local.py` the claim holds with the
thumbnail as the scoring reference: the comparison loop selects the
first minimum-distance candidate among those that fetched and hashed,
stores it (tier Resolved) iff that minimum is at most 15, and otherwise
falls back to the (normalised) preview image when present and unseen
(tier FallbackUsed); with no candidates and no reference image at all the
ordinal is Unresolved with the store untouched.  In
`yandex_image_scraper.py`/`yandex_image_scraper-v2.py` no scoring
occurs: the first enumerated candidate whose fetch succeeds is stored
regardless of distance. -/
theorem c1_amended :
    (∀ (dist : Img → Img → Option Nat) (sizeF : Img → Option Nat)
        (tU pU0 : Option String) (pD0 : Option Img) (cands : List String)
        (fetch : String → Option Img) (idx : Nat) (s : ScraperState)
        (t : Img) (y : String × Img × Nat),
      specArgmin (validCands dist fetch t cands) = some y →
      y.2.2 < 999999 →
      (∀ x ∈ validCands dist fetch t cands, y.2.2 ≤ x.2.2) ∧
      (y.2.2 ≤ 15 → y.1 ∉ s.downloaded_urls →
        (localResolve dist sizeF tU (some t) pU0 pD0 true cands fetch idx
          s).tier = Tier.Resolved ∧
        (localResolve dist sizeF tU (some t) pU0 pD0 true cands fetch idx
          s).url = some y.1) ∧
      (15 < y.2.2 → ∀ p pd,
        normPreview tU (some t) pU0 pD0 = (some p, some pd) →
        p ∉ s.downloaded_urls →
        (localResolve dist sizeF tU (some t) pU0 pD0 true cands fetch idx
          s).tier = Tier.FallbackUsed ∧
        (localResolve dist sizeF tU (some t) pU0 pD0 true cands fetch idx
          s).url = some p)) ∧
    (∀ (dist : Img → Img → Option Nat) (sizeF : Img → Option Nat)
        (tU pU0 : Option String) (wo : Bool) (cands : List String)
        (fetch : String → Option Img) (idx : Nat) (s : ScraperState),
      wo = false ∨ cands = [] →
      localResolve dist sizeF tU none pU0 none wo cands fetch idx s =
        ⟨Tier.Unresolved, none, s⟩) ∧
    (∀ (pU : Option String) (pD : Option Img) (u : String)
        (rest : List String) (d : Img) (fetch : String → Option Img)
        (idx : Nat) (s : ScraperState),
      fetch u = some d → u ∉ s.downloaded_urls →
      (v2Resolve pU pD true (u :: rest) fetch idx s).tier = Tier.Resolved ∧
      (v2Resolve pU pD true (u :: rest) fetch idx s).url = some u) := by
  refine ⟨?_, ?_, ?_⟩
  · intro dist sizeF tU pU0 pD0 cands fetch idx s t y hy hb
    have hvne : validCands dist fetch t cands ≠ [] := by
      intro h
      rw [h] at hy
      simp [specArgmin] at hy
    have hcne : cands.isEmpty = false := by
      cases cands with
      | nil => exact absurd (by simp [validCands]) hvne
      | cons a l => rfl
    have hmin := specArgmin_min _ y hy
    have hbl := bestLoop_spec dist fetch t cands y hy hb
    refine ⟨hmin.2, ?_, ?_⟩
    · intro h15 hnotin
      have hsv : (save_image s y.1 y.2.1 idx).1 = true := by
        simp [save_image, hnotin]
      rw [localResolve_thumb dist sizeF tU pU0 pD0 cands fetch idx s t hcne,
        hbl]
      simp [h15, hsv]
    · intro h15 p pd hp hps
      have h15n : ¬ y.2.2 ≤ 15 := by omega
      have hsv : (save_image s p pd idx).1 = true := by
        simp [save_image, hps]
      have hsv2 : (save_image s p pd idx).2.downloaded_urls =
          p :: s.downloaded_urls := by
        simp [save_image, hps]
      rw [localResolve_thumb dist sizeF tU pU0 pD0 cands fetch idx s t hcne,
        hbl]
      simp [h15n, hp, localFallback, hps, hsv]
  · intro dist sizeF tU pU0 wo cands fetch idx s hwo
    rcases hwo with rfl | rfl <;> cases pU0 <;> cases tU <;>
      simp [localResolve, normPreview, localFallback, localThumbFallback]
  · intro pU pD u rest d fetch idx s hf hu
    have hsv : (save_image s u d idx).1 = true := by simp [save_image, hu]
    constructor <;> simp [v2Resolve, hf, hsv]

/-- C1 witness: Scenario B against `yandex_scraper_local.py`'s pipeline —
candidates at distances 22, 9, 30 with threshold 15 resolve to the
distance-9 candidate `u2`, tier Resolved. -/
theorem c1_witness :
    (localResolve exDist exSize (some "tu") (some 100) (some "pu") (some 50)
      true ["u1", "u2", "u3"] exFetch 5 initState).tier = Tier.Resolved ∧
    (localResolve exDist exSize (some "tu") (some 100) (some "pu") (some 50)
      true ["u1", "u2", "u3"] exFetch 5 initState).url = some "u2" := by
  have h := ((c1_amended.1 exDist exSize (some "tu") (some "pu") (some 50)
    ["u1", "u2", "u3"] exFetch 5 initState 100 ("u2", 2, 9)
    (by decide) (by decide)).2.1 (by decide) (by decide))
  exact h

/-- C8 counterexample: one candidate at distance 5 (under the threshold),
thumbnail and preview present.  The first pass over the ordinal resolves
and stores the candidate URL `cu` (tier Resolved); reprocessing the same
ordinal against the identical tree finds the same winner, but the dedup
store now rejects `cu`, so the second pass stores the preview `pu`
instead (tier FallbackUsed): the tier and the winning URL both change,
refuting idempotence under an unchanged tree. -/
theorem c8_counterexample :
    (localResolve c8Dist exSize (some "tu") (some 100) (some "pu") (some 50)
      true ["cu"] c8Fetch 3 initState).tier = Tier.Resolved ∧
    (localResolve c8Dist exSize (some "tu") (some 100) (some "pu") (some 50)
      true ["cu"] c8Fetch 3 initState).url = some "cu" ∧
    (localResolve c8Dist exSize (some "tu") (some 100) (some "pu") (some 50)
      true ["cu"] c8Fetch 3
      (localResolve c8Dist exSize (some "tu") (some 100) (some "pu")
        (some 50) true ["cu"] c8Fetch 3 initState).st).tier =
      Tier.FallbackUsed ∧
    (localResolve c8Dist exSize (some "tu") (some 100) (some "pu") (some 50)
      true ["cu"] c8Fetch 3
      (localResolve c8Dist exSize (some "tu") (some 100) (some "pu")
        (some 50) true ["cu"] c8Fetch 3 initState).st).url = some "pu" ∧
    Tier.Resolved ≠ Tier.FallbackUsed := by
  decide

/-- C8 amended: per-ordinal resolution is a pure function of the tree
snapshot AND the dedup-store state: with the store unchanged the outcome
repeats exactly; but after a first pass that resolved and stored winner
`u`, the second pass over the unchanged tree is demoted — the duplicate
save of `u` fails and the (normalised) preview `p` is stored instead,
changing the tier from Resolved to FallbackUsed and the URL from `u` to
`p`. -/
theorem c8_amended (dist : Img → Img → Option Nat) (sizeF : Img → Option Nat)
    (tU pU0 : Option String) (pD0 : Option Img) (cands : List String)
    (fetch : String → Option Img) (idx idx' : Nat) (s : ScraperState)
    (t : Img) (u : String) (d : Img) (bd : Nat) (p : String) (pd : Img)
    (hbl : bestLoop dist fetch t cands = (some (u, d), bd))
    (hbd : bd ≤ 15) (hc : cands.isEmpty = false)
    (hu : u ∉ s.downloaded_urls)
    (hp : normPreview tU (some t) pU0 pD0 = (some p, some pd))
    (hps : p ∉ s.downloaded_urls) (hpu : p ≠ u) :
    (localResolve dist sizeF tU (some t) pU0 pD0 true cands fetch idx
      s).tier = Tier.Resolved ∧
    (localResolve dist sizeF tU (some t) pU0 pD0 true cands fetch idx
      s).url = some u ∧
    (localResolve dist sizeF tU (some t) pU0 pD0 true cands fetch idx'
      (localResolve dist sizeF tU (some t) pU0 pD0 true cands fetch idx
        s).st).tier = Tier.FallbackUsed ∧
    (localResolve dist sizeF tU (some t) pU0 pD0 true cands fetch idx'
      (localResolve dist sizeF tU (some t) pU0 pD0 true cands fetch idx
        s).st).url = some p ∧
    (∀ s0 : ScraperState,
      (localResolve dist sizeF tU (some t) pU0 pD0 true cands fetch idx
        s0).st = s0 →
      localResolve dist sizeF tU (some t) pU0 pD0 true cands fetch idx
        ((localResolve dist sizeF tU (some t) pU0 pD0 true cands fetch idx
          s0).st) =
      localResolve dist sizeF tU (some t) pU0 pD0 true cands fetch idx
        s0) := by
  have hsv : (save_image s u d idx).1 = true := by simp [save_image, hu]
  have h1 : localResolve dist sizeF tU (some t) pU0 pD0 true cands fetch idx s
      = ⟨Tier.Resolved, some u, (save_image s u d idx).2⟩ := by
    rw [localResolve_thumb dist sizeF tU pU0 pD0 cands fetch idx s t hc, hbl]
    simp [hbd, hsv]
  have hs' : (save_image s u d idx).2.downloaded_urls =
      u :: s.downloaded_urls := by
    simp [save_image, hu]
  obtain ⟨s1, hG⟩ : ∃ x, x = (save_image s u d idx).2 := ⟨_, rfl⟩
  rw [← hG] at h1
  rw [← hG] at hs'
  have hu2 : u ∈ s1.downloaded_urls := by
    rw [hs']
    exact List.mem_cons_self _ _
  have hps2 : p ∉ s1.downloaded_urls := by
    rw [hs']
    intro hmem
    rcases List.mem_cons.mp hmem with heq | hmem2
    · exact hpu heq
    · exact hps hmem2
  have hsava : (save_image s1 u d idx').1 = false := by
    simp [save_image, hu2]
  have hsavb : (save_image s1 u d idx').2 = s1 := by
    simp [save_image, hu2]
  have hsavp : (save_image s1 p pd idx').1 = true := by
    simp [save_image, hps2]
  have h2 : (localResolve dist sizeF tU (some t) pU0 pD0 true cands fetch
        idx' s1).tier = Tier.FallbackUsed ∧
      (localResolve dist sizeF tU (some t) pU0 pD0 true cands fetch
        idx' s1).url = some p := by
    rw [localResolve_thumb dist sizeF tU pU0 pD0 cands fetch idx' s1 t hc,
      hbl]
    constructor <;>
      simp [hbd, hsava, hsavb, hp, localFallback, hps2, hsavp]
  refine ⟨by rw [h1], by rw [h1], ?_, ?_, ?_⟩
  · rw [h1]
    exact h2.1
  · rw [h1]
    exact h2.2
  · intro s0 h
    rw [h]

/-- C8 witness: the demotion theorem applied at the concrete reprocessing
scenario — first pass Resolved with `cu`, second pass FallbackUsed with
`pu`. -/
theorem c8_witness :
    (localResolve c8Dist exSize (some "tu") (some 100) (some "pu") (some 50)
      true ["cu"] c8Fetch 4
      (localResolve c8Dist exSize (some "tu") (some 100) (some "pu")
        (some 50) true ["cu"] c8Fetch 3 initState).st).tier =
      Tier.FallbackUsed := by
  exact (c8_amended c8Dist exSize (some "tu") (some "pu") (some 50) ["cu"]
    c8Fetch 3 4 initState 100 "cu" 7 5 "pu" 50 (by decide) (by decide)
    (by decide) (by decide) (by decide) (by decide) (by decide)).2.2.1
